import Mathlib

/-!
Verification development for the titan Gemini client.

Strings from the Rust sources are embedded as lists of characters
(abbreviated Str below) and byte buffers as lists of natural numbers,
each byte taken modulo 256 by construction of the inputs.
-/

namespace Titan

/-- Character-list view of a Lean string literal, used to write inputs. -/
def strOf (s : String) : List Char := s.data

/-- Byte strings. -/
abbrev Bytes := List Nat

/-- Character strings (borrowed str slices in the Rust sources). -/
abbrev Str := List Char

/-! ## UTF-8 (model of Rust String::as_bytes and str::from_utf8) -/

/-- UTF-8 encoding of one scalar value, as in Rust char encoding. -/
def utf8EncodeChar (c : Char) : Bytes :=
  let n := c.toNat
  if n < 0x80 then [n]
  else if n < 0x800 then [0xC0 + n / 64, 0x80 + n % 64]
  else if n < 0x10000 then [0xE0 + n / 4096, 0x80 + (n / 64) % 64, 0x80 + n % 64]
  else [0xF0 + n / 262144, 0x80 + (n / 4096) % 64, 0x80 + (n / 64) % 64, 0x80 + n % 64]

/-- UTF-8 encoding of a string (Rust str::as_bytes). -/
def utf8Encode (s : Str) : Bytes := (s.map utf8EncodeChar).foldr (· ++ ·) []

/-- Whether a byte is a UTF-8 continuation byte (0x80 to 0xBF). -/
def isCont (b : Nat) : Bool := 0x80 ≤ b && b ≤ 0xBF

/-- UTF-8 decoding with the validation performed by Rust str::from_utf8:
rejects overlong encodings, surrogates and out-of-range values. -/
def utf8Decode : Bytes → Option Str
  | [] => some []
  | b0 :: rest =>
    if b0 < 0x80 then
      (utf8Decode rest).map (Char.ofNat b0 :: ·)
    else if 0xC2 ≤ b0 && b0 ≤ 0xDF then
      match rest with
      | b1 :: rest2 =>
        if isCont b1 then
          (utf8Decode rest2).map (Char.ofNat ((b0 - 0xC0) * 64 + (b1 - 0x80)) :: ·)
        else none
      | _ => none
    else if 0xE0 ≤ b0 && b0 ≤ 0xEF then
      match rest with
      | b1 :: b2 :: rest2 =>
        let okB1 : Bool :=
          if b0 = 0xE0 then 0xA0 ≤ b1 && b1 ≤ 0xBF
          else if b0 = 0xED then 0x80 ≤ b1 && b1 ≤ 0x9F
          else isCont b1
        if okB1 && isCont b2 then
          (utf8Decode rest2).map
            (Char.ofNat ((b0 - 0xE0) * 4096 + (b1 - 0x80) * 64 + (b2 - 0x80)) :: ·)
        else none
      | _ => none
    else if 0xF0 ≤ b0 && b0 ≤ 0xF4 then
      match rest with
      | b1 :: b2 :: b3 :: rest2 =>
        let okB1 : Bool :=
          if b0 = 0xF0 then 0x90 ≤ b1 && b1 ≤ 0xBF
          else if b0 = 0xF4 then 0x80 ≤ b1 && b1 ≤ 0x8F
          else isCont b1
        if okB1 && isCont b2 && isCont b3 then
          (utf8Decode rest2).map
            (Char.ofNat ((b0 - 0xF0) * 262144 + (b1 - 0x80) * 4096 +
              (b2 - 0x80) * 64 + (b3 - 0x80)) :: ·)
        else none
      | _ => none
    else none

/-! ## Shared character classes -/

/-- The nom space0 character class: ASCII space and tab. -/
def isSpace0 (c : Char) : Bool := c == ' ' || c == '\t'

/-- Rust char::is_whitespace (the Unicode White_Space property). -/
def rustIsWhitespace (c : Char) : Bool :=
  let n := c.toNat
  (0x09 ≤ n && n ≤ 0x0D) || n == 0x20 || n == 0x85 || n == 0xA0 || n == 0x1680 ||
  (0x2000 ≤ n && n ≤ 0x200A) || n == 0x2028 || n == 0x2029 || n == 0x202F ||
  n == 0x205F || n == 0x3000

/-- nom is_digit on a byte: ASCII 0 through 9. -/
def isDigitByte (b : Nat) : Bool := 48 ≤ b && b ≤ 57

/-! ## read_line (src/lib/src/parser.rs and src/src/parser.rs, identical) -/

/-- Model of read_line: terminated(alt((is_not("\r\n"), tag(""))),
alt((tag("\r\n"), tag("\n"), tag("")))). Returns the line content and the
rest of the input. On input beginning with a carriage return that is not
followed by a newline, all three terminator alternatives but tag("")
fail, so nothing at all is consumed. -/
def read_line (input : Str) : Str × Str :=
  let content := input.takeWhile (fun c => !(c == '\r' || c == '\n'))
  let rest := input.drop content.length
  let rest2 :=
    match rest with
    | '\r' :: '\n' :: t => t
    | '\n' :: t => t
    | _ => rest
  (content, rest2)

/-- Model of nom tag: strip the literal prefix or fail. -/
def tagP (t : Str) (input : Str) : Option Str :=
  if t.isPrefixOf input then some (input.drop t.length) else none

/-- Index of the first occurrence of a pattern as a sublist (nom take_until). -/
def findSub (pat : Str) : Str → Option Nat
  | [] => if pat.isEmpty then some 0 else none
  | x :: t =>
    if pat.isPrefixOf (x :: t) then some 0
    else (findSub pat t).map (· + 1)

namespace Lib

/-- Line (src/lib/src/protocol.rs): tagged variant over borrowed substrings. -/
inductive Line where
  | text (s : Str)
  | bareLink (url : Str)
  | namedLink (url : Str) (name : Str)
  | pre (alt : Option Str) (body : Str)
  | h1 (s : Str)
  | h2 (s : Str)
  | h3 (s : Str)
  | list (s : Str)
  | quote (s : Str)
deriving DecidableEq, Repr

/-- read_prefixed: tag, then space0, then read_line. -/
def read_prefixed (t : Str) (f : Str → Line) (input : Str) : Option (Line × Str) :=
  match tagP t input with
  | none => none
  | some r1 =>
    let r2 := r1.dropWhile isSpace0
    let (o, rest) := read_line r2
    some (f o, rest)

/-- parse_line_link: tag "=>", space0, take_till(is_whitespace), space0,
read_line; empty name yields BareLink. -/
def parse_line_link (input : Str) : Option (Line × Str) :=
  match tagP (strOf "=>") input with
  | none => none
  | some r1 =>
    let r1b := r1.dropWhile isSpace0
    let url := r1b.takeWhile (fun c => !rustIsWhitespace c)
    let r2 := (r1b.drop url.length).dropWhile isSpace0
    let (name, rest) := read_line r2
    some (if name.isEmpty then Line.bareLink url else Line.namedLink url name, rest)

/-- parse_pre (src/lib/src/parser.rs): tag three backquotes, read the alt
line, then take_until the newline-fence-newline delimiter; fails when no
closing fence follows. -/
def parse_pre (input : Str) : Option (Line × Str) :=
  match tagP (strOf "```") input with
  | none => none
  | some r1 =>
    let (altLine, r2) := read_line r1
    let alt := if altLine.isEmpty then none else some altLine
    match findSub (strOf "\n```\n") r2 with
    | none => none
    | some i => some (Line.pre alt (r2.take i), r2.drop (i + 5))

/-- parse_line: alt over h3, h2, h1, list, quote, link, pre, text in this
order; the text alternative always succeeds. -/
def parse_line (input : Str) : Line × Str :=
  match read_prefixed (strOf "###") Line.h3 input with
  | some r => r
  | none =>
  match read_prefixed (strOf "##") Line.h2 input with
  | some r => r
  | none =>
  match read_prefixed (strOf "#") Line.h1 input with
  | some r => r
  | none =>
  match read_prefixed (strOf "* ") Line.list input with
  | some r => r
  | none =>
  match read_prefixed (strOf ">") Line.quote input with
  | some r => r
  | none =>
  match parse_line_link input with
  | some r => r
  | none =>
  match parse_pre input with
  | some r => r
  | none =>
    let (t, rest) := read_line input
    (Line.text t, rest)

/-- The loop of parse_text_gemini, with explicit fuel: one unit per
iteration of the Rust while loop. The Rust loop has no fuel; a none
result at every fuel therefore models non-termination of the source. -/
def parse_text_gemini_fuel : Nat → Str → Option (List Line × Str)
  | _, [] => some ([], [])
  | 0, _ :: _ => none
  | fuel + 1, c :: t =>
    let (line, rest) := parse_line (c :: t)
    match parse_text_gemini_fuel fuel rest with
    | none => none
    | some (doc, rem) => some (line :: doc, rem)

/-- parse_text_gemini with enough fuel for any terminating run: every
productive iteration consumes at least one character, so length + 1 units
suffice whenever the Rust loop terminates; a none result means the Rust
loop never terminates on this input. -/
def parse_text_gemini (input : Str) : Option (List Line × Str) :=
  parse_text_gemini_fuel (input.length + 1) input

end Lib

namespace Bin

/-- Line (src/src/protocol.rs, Line_ instantiated at owned strings): the
binary crate still has a single Link variant with an optional name, and
its Pre carries one accumulated text payload. -/
inductive Line where
  | text (s : Str)
  | link (url : Str) (name : Option Str)
  | pre (alt : Option Str) (body : Str)
  | h1 (s : Str)
  | h2 (s : Str)
  | h3 (s : Str)
  | list (s : Str)
  | quote (s : Str)
deriving DecidableEq, Repr

/-- read_prefixed (src/src/parser.rs): tag, space0, read_line. -/
def read_prefixed (t : Str) (f : Str → Line) (input : Str) : Option (Line × Str) :=
  match tagP t input with
  | none => none
  | some r1 =>
    let r2 := r1.dropWhile isSpace0
    let (o, rest) := read_line r2
    some (f o, rest)

/-- parse_line_link (src/src/parser.rs): as in the library parser, but the
name is kept as an Option inside the single Link variant. -/
def parse_line_link (input : Str) : Option (Line × Str) :=
  match tagP (strOf "=>") input with
  | none => none
  | some r1 =>
    let r1b := r1.dropWhile isSpace0
    let url := r1b.takeWhile (fun c => !rustIsWhitespace c)
    let r2 := (r1b.drop url.length).dropWhile isSpace0
    let (name, rest) := read_line r2
    some (Line.link url (if name.isEmpty then none else some name), rest)

/-- parse_line_pre (src/src/parser.rs): consumes only the fence line and
returns its optional alt tag; the block body is accumulated by the
caller. -/
def parse_line_pre (input : Str) : Option (Option Str × Str) :=
  match tagP (strOf "```") input with
  | none => none
  | some r1 =>
    let (altLine, rest) := read_line r1
    some (if altLine.isEmpty then none else some altLine, rest)

/-- parse_line (src/src/parser.rs): alt over h3, h2, h1, list, quote,
link, pre, text in this order. -/
def parse_line (input : Str) : Line × Str :=
  match read_prefixed (strOf "###") Line.h3 input with
  | some r => r
  | none =>
  match read_prefixed (strOf "##") Line.h2 input with
  | some r => r
  | none =>
  match read_prefixed (strOf "#") Line.h1 input with
  | some r => r
  | none =>
  match read_prefixed (strOf "* ") Line.list input with
  | some r => r
  | none =>
  match read_prefixed (strOf ">") Line.quote input with
  | some r => r
  | none =>
  match parse_line_link input with
  | some r => r
  | none =>
  match parse_line_pre input with
  | some (alt, rest) => (Line.pre alt [], rest)
  | none =>
    let (t, rest) := read_line input
    (Line.text t, rest)

/-- Join accumulated preformatted lines with newlines (Vec::join). -/
def joinNl : List Str → Str
  | [] => []
  | [l] => l
  | l :: ls => l ++ '\n' :: joinNl ls

/-- The loop of parse_text_gemini (src/src/parser.rs) with explicit fuel.
The first component of the preformatted accumulator is the list of raw
lines gathered so far, the second the alt tag of the opening fence. When
the input runs out while the accumulator is still live, the Rust loop
simply exits and the accumulated block is never pushed. -/
def parse_text_gemini_fuel : Nat → Option (List Str × Option Str) → Str → Option (List Line)
  | _, _, [] => some []
  | 0, _, _ :: _ => none
  | fuel + 1, some acc, c :: t =>
    match parse_line_pre (c :: t) with
    | some (_, rest) =>
      match parse_text_gemini_fuel fuel none rest with
      | none => none
      | some doc => some (Line.pre acc.2 (joinNl acc.1) :: doc)
    | none =>
      let (l, rest) := read_line (c :: t)
      parse_text_gemini_fuel fuel (some (acc.1 ++ [l], acc.2)) rest
  | fuel + 1, none, c :: t =>
    match parse_line (c :: t) with
    | (Line.pre alt _, rest) => parse_text_gemini_fuel fuel (some ([], alt)) rest
    | (line, rest) =>
      match parse_text_gemini_fuel fuel none rest with
      | none => none
      | some doc => some (line :: doc)

/-- parse_text_gemini (src/src/parser.rs) with enough fuel for any
terminating run of the Rust loop. -/
def parse_text_gemini (input : Str) : Option (List Line) :=
  parse_text_gemini_fuel (input.length + 1) none input

end Bin

/-! ## Status (src/lib/src/protocol.rs Status and src/src/protocol.rs
ResponseStatus: the two enumerations are identical) -/

/-- The closed eighteen-value status enumeration. -/
inductive Status where
  | input
  | sensitiveInput
  | success
  | redirectTemporary
  | redirectPermanent
  | temporaryFailure
  | serverUnavailable
  | cgiError
  | proxyError
  | slowDown
  | permanentFailure
  | notFound
  | gone
  | proxyRequestRefused
  | badRequest
  | clientCertificateRequired
  | certificateNotAuthorized
  | certificateNotValid
deriving DecidableEq, Repr

/-- TryFrom of u32 for Status: the two-digit code table; any other code
is the InvalidStatusCode error, here none. -/
def Status.tryFrom (v : Nat) : Option Status :=
  match v with
  | 10 => some .input
  | 11 => some .sensitiveInput
  | 20 => some .success
  | 30 => some .redirectTemporary
  | 31 => some .redirectPermanent
  | 40 => some .temporaryFailure
  | 41 => some .serverUnavailable
  | 42 => some .cgiError
  | 43 => some .proxyError
  | 44 => some .slowDown
  | 50 => some .permanentFailure
  | 51 => some .notFound
  | 52 => some .gone
  | 53 => some .proxyRequestRefused
  | 59 => some .badRequest
  | 60 => some .clientCertificateRequired
  | 61 => some .certificateNotAuthorized
  | 62 => some .certificateNotValid
  | _ => none

/-! ## Response header parsing (src/lib/src/parser.rs) -/

/-- Response (src/lib/src/protocol.rs): status, meta string, body bytes. -/
structure Response where
  status : Status
  meta : Str
  body : Bytes
deriving DecidableEq, Repr

/-- Errors of the fetch pipeline. The library crate names them in
src/lib/src/error.rs; the binary crate carries the same conditions as
anyhow messages (tooManyRedirects is the Too much recursion error,
inputCancelled the Failed to get input error). -/
inductive FErr where
  | parseError
  | tooManyRedirects
  | invalidURLScheme
  | noHostname
  | unknownMeta
  | urlParseError
  | utf8Error
  | inputCancelled
deriving DecidableEq, Repr

/-- parse_response_header: exactly two ASCII digit bytes mapped through
Status::try_from, one space, at most 1024 bytes other than CR decoded as
UTF-8, then the literal CRLF. Returns the parsed pieces and the
remaining body bytes; none is any nom error (including an invalid status
code surfaced through map_res). -/
def parse_response_header (input : Bytes) : Option (Status × Str × Bytes) :=
  match input with
  | b0 :: b1 :: b2 :: rest =>
    if isDigitByte b0 && isDigitByte b1 then
      match Status.tryFrom ((b0 - 48) * 10 + (b1 - 48)) with
      | none => none
      | some st =>
        if b2 == 32 then
          let metaBytes := (rest.takeWhile (fun b => b != 13)).take 1024
          match rest.drop metaBytes.length with
          | 13 :: 10 :: body =>
            match utf8Decode metaBytes with
            | none => none
            | some meta => some (st, meta, body)
          | _ => none
        else none
    else none
  | _ => none

/-- parse_response (src/lib/src/parser.rs): any header parse failure is
collapsed into ParseError. -/
def parse_response (input : Bytes) : Except FErr Response :=
  match parse_response_header input with
  | none => .error .parseError
  | some (st, meta, body) => .ok ⟨st, meta, body⟩

/-! ## TOFU verifier (src/src/tofu.rs) -/

/-- TLS errors produced by verify_server_cert. certNotValidForName is
rustls WebPKIError(CertNotValidForName); general wraps a sled error
message. -/
inductive TLSErr where
  | noCertificatesPresented
  | certNotValidForName
  | general (msg : Str)
deriving DecidableEq, Repr

/-- DER bytes of one certificate. -/
abbrev Der := Bytes

/-- The certs tree of the sled database: a finite map from DNS name to
the DER of the last leaf certificate seen for it. -/
abbrev Store := List (Str × Der)

/-- sled Tree::get. -/
def storeGet : Store → Str → Option Der
  | [], _ => none
  | (k, v) :: t, h => if k = h then some v else storeGet t h

/-- sled Tree::insert, modelled as shadowing insertion at the front. -/
def storeInsert (store : Store) (k : Str) (v : Der) : Store := (k, v) :: store

/-- GeminiCertificateVerifier::verify_server_cert: empty presentation
fails; an unknown host records the presented leaf and succeeds; a
recorded leaf must be byte-identical or the handshake fails. Returns the
verification result together with the store after the call (the sled
read and write themselves are modelled as pure map operations; their
own error paths, mapped to TLSErr.general in the source, do not arise
in the model). -/
def verify_server_cert (store : Store) (dnsName : Str) (presentedCerts : List Der) :
    Except TLSErr Unit × Store :=
  match presentedCerts with
  | [] => (.error .noCertificatesPresented, store)
  | c0 :: _ =>
    match storeGet store dnsName with
    | some c =>
      if c = c0 then (.ok (), store)
      else (.error .certNotValidForName, store)
    | none => (.ok (), storeInsert store dnsName c0)

/-! ## URLs (model of the external url crate, restricted to the
absolute non-special URLs the client handles) -/

/-- A parsed URL: scheme, optional host, optional port, path, query.
Fragments and userinfo, which the client never produces, are omitted. -/
structure Url where
  scheme : Str
  host : Option Str
  port : Option Nat
  path : Str
  query : Option Str
deriving DecidableEq, Repr

/-- Digit characters to a number (for the port). -/
def digitsToNat (ds : Str) : Nat :=
  ds.foldl (fun acc c => acc * 10 + (c.toNat - 48)) 0

/-- Model of url::Url::parse for absolute URLs of the shape
scheme://host[:port][/path][?query]; a string without a scheme and
authority (in particular a relative URL) does not parse. -/
def urlParse (s : Str) : Option Url :=
  let scheme := s.takeWhile (fun c => c != ':')
  if scheme.isEmpty || !scheme.all (fun c => c.isAlpha) then none
  else
    match s.drop scheme.length with
    | ':' :: '/' :: '/' :: r =>
      let authority := r.takeWhile (fun c => !(c == '/' || c == '?'))
      let afterAuth := r.drop authority.length
      let hostStr := authority.takeWhile (fun c => c != ':')
      if hostStr.isEmpty then none
      else
        let portPart := authority.drop hostStr.length
        let port? : Option (Option Nat) :=
          match portPart with
          | [] => some none
          | ':' :: ds => if !ds.isEmpty && ds.all (fun c => c.isDigit)
                         then some (some (digitsToNat ds)) else none
          | _ => none
        match port? with
        | none => none
        | some port =>
          let path := afterAuth.takeWhile (fun c => c != '?')
          let query :=
            match afterAuth.drop path.length with
            | '?' :: q => some q
            | _ => none
          some ⟨scheme, some hostStr, port, path, query⟩
    | _ => none

/-- An uppercase hexadecimal digit. -/
def hexDigitUpper (n : Nat) : Char :=
  if n < 10 then Char.ofNat (48 + n) else Char.ofNat (55 + n)

/-- Percent-encoding of one byte, uppercase hex as in the url crate. -/
def pctEncodeByte (b : Nat) : Str :=
  ['%', hexDigitUpper (b / 16), hexDigitUpper (b % 16)]

/-- form_urlencoded byte_serialized_unchanged: asterisk, hyphen, dot,
digits, ASCII letters and underscore pass through unchanged. -/
def byteSerializedUnchanged (b : Nat) : Bool :=
  b == 42 || b == 45 || b == 46 || (48 ≤ b && b ≤ 57) ||
  (65 ≤ b && b ≤ 90) || b == 95 || (97 ≤ b && b ≤ 122)

/-- url::form_urlencoded::byte_serialize collected into a string: bytes
in the unchanged class pass through, a space byte becomes a plus sign,
every other byte is percent-encoded. -/
def byte_serialize (bytes : Bytes) : Str :=
  (bytes.map (fun b =>
    if byteSerializedUnchanged b then [Char.ofNat b]
    else if b == 32 then ['+']
    else pctEncodeByte b)).foldr (· ++ ·) []

/-- The query percent-encode set of the url crate: C0 controls, space,
double quote, number sign, less-than, greater-than and bytes above
tilde. -/
def inQuerySet (b : Nat) : Bool :=
  b ≤ 0x1F || b == 32 || b == 34 || b == 35 || b == 60 || b == 62 || 0x7F ≤ b

/-- url::Url::set_query(Some(q)): the stored query is q with the query
percent-encode set applied to its UTF-8 bytes. -/
def urlSetQuery (u : Url) (q : Str) : Url :=
  { u with query := some (((utf8Encode q).map (fun b =>
      if inQuerySet b then pctEncodeByte b else [Char.ofNat b])).foldr (· ++ ·) []) }

/-- Digits of a number, most significant first (for serializing ports). -/
def natToDigits (n : Nat) : Str := (Nat.toDigits 10 n)

/-- url::Url::as_str for the URLs of this model. -/
def urlAsStr (u : Url) : Str :=
  u.scheme ++ strOf "://" ++ u.host.getD [] ++
  (match u.port with
   | some p => ':' :: natToDigits p
   | none => []) ++
  u.path ++
  (match u.query with
   | some q => '?' :: q
   | none => [])

/-! ## Fetch engine (src/src/app.rs) -/

/-- Outcome of a successful App::fetch_: either a document handed to
display_doc (the interactive viewport is abstracted to the document it
is shown), or the Command::Exit returned for every non-handled status
(the header-banner TODO branch of the source). -/
inductive FetchOutcome where
  | shown (doc : List Lib.Line)
  | exit
deriving DecidableEq, Repr

/-- App::read (src/src/app.rs): scheme and hostname validation followed
by the TLS round trip, which is abstracted into the network oracle
net mapping each requested URL to the raw response bytes read from the
stream (the ConnectionAborted tolerance and transport errors live
inside that abstraction). -/
def appRead (net : Url → Bytes) (url : Url) : Except FErr Bytes :=
  if url.scheme ≠ strOf "gemini" then .error .invalidURLScheme
  else
    match url.host with
    | none => .error .noHostname
    | some _ => .ok (net url)

/-- The body of App::fetch_ (src/src/app.rs), written with the remaining
recursion budget gas = 5 - depth so that the bounded recursion of the
source (guard depth >= 5, recursive calls at depth + 1) becomes
structural. inp is the input collaborator: the string the user enters
at an input prompt, or none when the prompt is cancelled. The result is
some r for a returning run and none when the text/gemini body parse
inherits the non-termination of parse_text_gemini. -/
def fetchGas (net : Url → Bytes) (inp : Option Str) : Nat → Url → Option (Except FErr FetchOutcome)
  | 0, _ => some (.error .tooManyRedirects)
  | gas + 1, url =>
    match appRead net url with
    | .error e => some (.error e)
    | .ok plaintext =>
      match parse_response plaintext with
      | .error e => some (.error e)
      | .ok resp =>
        match resp.status with
        | .redirectTemporary | .redirectPermanent =>
          match urlParse resp.meta with
          | none => some (.error .urlParseError)
          | some next => fetchGas net inp gas next
        | .input | .sensitiveInput =>
          match inp with
          | some s => fetchGas net inp gas (urlSetQuery url (byte_serialize (utf8Encode s)))
          | none => some (.error .inputCancelled)
        | .success =>
          if (strOf "text/gemini").isPrefixOf resp.meta then
            match utf8Decode resp.body with
            | none => some (.error .utf8Error)
            | some body =>
              match Lib.parse_text_gemini body with
              | none => none
              | some (doc, _) => some (.ok (.shown doc))
          else if (strOf "text/").isPrefixOf resp.meta then
            match utf8Decode resp.body with
            | none => some (.error .utf8Error)
            | some body => some (.ok (.shown [Lib.Line.pre none body]))
          else some (.error .unknownMeta)
        | _ => some (.ok .exit)

/-- App::fetch_ at a given depth: the guard depth >= 5 of the source is
gas = 0 under gas = 5 - depth. -/
def fetch_ (net : Url → Bytes) (inp : Option Str) (url : Url) (depth : Nat) :
    Option (Except FErr FetchOutcome) :=
  fetchGas net inp (5 - depth) url

/-- App::fetch: the pipeline entered at depth 0. -/
def fetch (net : Url → Bytes) (inp : Option Str) (url : Url) :
    Option (Except FErr FetchOutcome) :=
  fetch_ net inp url 0

/-! ## Word wrapping (model of the external textwrap 0.11 crate) -/

/-- Split into whitespace-separated words, accumulating the current word
in reverse. -/
def splitWsGo (cur : Str) : Str → List Str
  | [] => if cur.isEmpty then [] else [cur.reverse]
  | c :: t =>
    if rustIsWhitespace c then
      if cur.isEmpty then splitWsGo [] t else cur.reverse :: splitWsGo [] t
    else splitWsGo (c :: cur) t

/-- Rust str::split_whitespace. -/
def splitWs (s : Str) : List Str := splitWsGo [] s

/-- Greedy packing of words into lines of at most width characters; a
word longer than the width stands alone on its line. -/
def greedyGo (width : Nat) (cur : Str) : List Str → List Str
  | [] => [cur]
  | w :: ws =>
    if cur.length + 1 + w.length ≤ width then greedyGo width (cur ++ ' ' :: w) ws
    else cur :: greedyGo width w ws

/-- Model of textwrap::Wrapper::new(width).wrap: greedy word wrap. The
output is empty exactly when the input has no words; in particular
wrapping the empty string yields no lines, which is what the fallback in
src/src/wrapped.rs exists to repair. Column counts are character counts
here (the crate uses display width) and over-long words are not broken
mid-word; neither difference affects how many lines a given line count
property sees, nor emptiness of the output for empty input. -/
def textwrapWrap (width : Nat) (s : Str) : List Str :=
  match splitWs s with
  | [] => []
  | w :: ws => greedyGo width w ws

/-- Split on newline characters, Rust str::split with a char pattern:
always at least one piece, empty pieces preserved. -/
def splitNlGo (cur : Str) : Str → List Str
  | [] => [cur.reverse]
  | c :: t => if c = '\n' then cur.reverse :: splitNlGo [] t else splitNlGo (c :: cur) t

/-- Rust str::split on a newline. -/
def splitNl (s : Str) : List Str := splitNlGo [] s

/-! ## Wrapper (src/src/wrapped.rs) -/

/-- zip with once(true).chain(repeat(false)): the first element of a
block is flagged, the rest are not. -/
def wrapFlags {α : Type} : List α → List (α × Bool)
  | [] => []
  | x :: t => (x, true) :: t.map (fun y => (y, false))

/-- wrap (src/src/wrapped.rs): wrap the payload, tag each piece through
the line constructor and flag the first piece; an empty wrap output is
replaced by the single flagged default line built from the empty
payload. -/
def wrap (s : Str) (width : Nat) (f : Str → Lib.Line) : List (Lib.Line × Bool) :=
  match textwrapWrap width s with
  | [] => [(f [], true)]
  | p :: ps => wrapFlags ((p :: ps).map f)

/-- line_wrap (src/src/wrapped.rs): per-variant effective widths; a bare
link is always one flagged line; a preformatted block contributes one
line per raw newline-separated line of its body. -/
def line_wrap (line : Lib.Line) (width : Nat) : List (Lib.Line × Bool) :=
  match line with
  | .text t => wrap t width Lib.Line.text
  | .bareLink url => [(.bareLink url, true)]
  | .namedLink url name => wrap name (width - 3) (Lib.Line.namedLink url)
  | .pre alt body => wrapFlags ((splitNl body).map (Lib.Line.pre alt))
  | .h1 t => wrap t (width - 2) Lib.Line.h1
  | .h2 t => wrap t (width - 3) Lib.Line.h2
  | .h3 t => wrap t (width - 4) Lib.Line.h3
  | .list t => wrap t (width - 2) Lib.Line.list
  | .quote t => wrap t (width - 2) Lib.Line.quote

/-- word_wrap (src/src/wrapped.rs): concatenation of the per-line
wraps. -/
def word_wrap (d : List Lib.Line) (width : Nat) : List (Lib.Line × Bool) :=
  (d.map (fun line => line_wrap line width)).foldr (· ++ ·) []

/-! ## Viewport navigation (src/src/view.rs WrappedView) -/

/-- A wrapped block as stored in the Document word_wrap of
src/src/document.rs: the per-variant vector of screen rows. A link with
no name keeps an empty row vector but navigates as one line through
Line_::len. -/
inductive VLine where
  | vtext (rows : List Str)
  | vlink (url : Str) (name : Option (List Str))
  | vpre (alt : Option Str) (rows : List Str)
  | vh1 (rows : List Str)
  | vh2 (rows : List Str)
  | vh3 (rows : List Str)
  | vlist (rows : List Str)
  | vquote (rows : List Str)
deriving DecidableEq, Repr

/-- Line_::len (src/src/protocol.rs): the number of screen rows a block
occupies for navigation; a bare link counts as one. -/
def VLine.len : VLine → Nat
  | .vtext rows => rows.length
  | .vlink _ (some rows) => rows.length
  | .vlink _ none => 1
  | .vpre _ rows => rows.length
  | .vh1 rows => rows.length
  | .vh2 rows => rows.length
  | .vh3 rows => rows.length
  | .vlist rows => rows.length
  | .vquote rows => rows.length

/-- Indented wrapping used by Document::line_wrap of src/src/document.rs
for headers, lists, quotes and named links (textwrap initial_indent and
subsequent_indent of equal width): wrap at the reduced width, prefix the
first line with the initial indent and the rest with the subsequent
one. -/
def wrapInd (width : Nat) (init subs : Str) (t : Str) : List Str :=
  match textwrapWrap (width - init.length) t with
  | [] => []
  | r :: rs => (init ++ r) :: rs.map (fun x => subs ++ x)

/-- Document::line_wrap (src/src/document.rs): note that an empty text
payload wraps to zero rows, and a named link or heading with an empty
payload likewise; no fallback row is inserted here. -/
def docLineWrap (width : Nat) : Bin.Line → VLine
  | .text t => .vtext (textwrapWrap width t)
  | .link url (some n) => .vlink url (some (wrapInd width (strOf "=> ") (strOf "   ") n))
  | .link url none => .vlink url none
  | .pre alt body => .vpre alt (splitNl body)
  | .h1 t => .vh1 (wrapInd width (strOf "# ") (strOf "# ") t)
  | .h2 t => .vh2 (wrapInd width (strOf "## ") (strOf "   ") t)
  | .h3 t => .vh3 (wrapInd width (strOf "### ") (strOf "    ") t)
  | .list t => .vlist (wrapInd width (strOf "• ") (strOf "  ") t)
  | .quote t => .vquote (wrapInd width (strOf "> ") (strOf "> ") t)

/-- Document::word_wrap (src/src/document.rs): a Pre body arrives at the
view already split into raw lines, so docLineWrap receives the joined
body and splits it; the remaining variants wrap their payloads. -/
def docWordWrap (d : List Bin.Line) (width : Nat) : List VLine :=
  d.map (docLineWrap width)

/-- usize subtraction of one with release-mode wrapping semantics: on a
zero length the Rust expression len() - 1 wraps around to 2^64 - 1 (and
panics in a debug build). -/
def usizeSubOne (n : Nat) : Nat := (n + (2 ^ 64 - 1)) % 2 ^ 64

/-- WrappedView (src/src/view.rs): wrapped blocks, terminal size already
reduced to the text area (tw, th), scroll and cursor as block and line
pairs. The source document reference, offsets cache and redraw flag are
not part of the navigation semantics. -/
structure WView where
  doc : List VLine
  tw : Nat
  th : Nat
  yscroll : Nat × Nat
  ycursor : Nat × Nat
deriving DecidableEq, Repr

/-- Length of the indexed block; Rust indexing panics out of range, all
runs below stay in range of the block list. -/
def blockLen (doc : List VLine) (i : Nat) : Nat := (doc.getD i (.vtext [])).len

/-- WrappedView::increment_index: the comparisons against len() - 1 use
wrapping usize arithmetic. -/
def increment_index (doc : List VLine) (i : Nat × Nat) : Nat × Nat :=
  if i.2 = usizeSubOne (blockLen doc i.1) then
    if i.1 = usizeSubOne doc.length then i
    else (i.1 + 1, 0)
  else (i.1, i.2 + 1)

/-- WrappedView::decrement_index. -/
def decrement_index (doc : List VLine) (i : Nat × Nat) : Nat × Nat :=
  if i.2 = 0 then
    if i.1 = 0 then i
    else (i.1 - 1, usizeSubOne (blockLen doc (i.1 - 1)))
  else (i.1, i.2 - 1)

/-- Screen line of a block and line index: the offsets scan of
WrappedView::new, evaluated at the block, plus the line. -/
def screenLine (doc : List VLine) (i : Nat × Nat) : Nat :=
  (((doc.take i.1).map VLine.len).foldr (· + ·) 0) + i.2

/-- WrappedView::cursor_line. -/
def cursor_line (v : WView) : Nat := screenLine v.doc v.ycursor

/-- WrappedView::scroll_line. -/
def scroll_line (v : WView) : Nat := screenLine v.doc v.yscroll

/-- Total number of screen lines of the wrapped document. -/
def totalLines (doc : List VLine) : Nat := (doc.map VLine.len).foldr (· + ·) 0

/-- WrappedView::down: increment the cursor, then scroll when the cursor
line has left the window. -/
def down (v : WView) : WView :=
  let v1 := { v with ycursor := increment_index v.doc v.ycursor }
  if cursor_line v1 ≥ scroll_line v1 + v1.th then
    { v1 with yscroll := increment_index v1.doc v1.yscroll }
  else v1

/-- WrappedView::up. -/
def up (v : WView) : WView :=
  let v1 := { v with ycursor := decrement_index v.doc v.ycursor }
  if cursor_line v1 < scroll_line v1 then
    { v1 with yscroll := decrement_index v1.doc v1.yscroll }
  else v1

/-- WrappedView::new: wrap the source at size.0 - 4, keep a text area of
size.1 - 2 rows, place scroll and cursor at the given block indices with
line 0. -/
def wviewNew (source : List Bin.Line) (size : Nat × Nat)
    (yscroll0 ycursor0 : Nat) : WView :=
  { doc := docWordWrap source (size.1 - 4)
    tw := size.1 - 4
    th := size.2 - 2
    yscroll := (yscroll0, 0)
    ycursor := (ycursor0, 0) }

/-- A navigation event: the j and k keys and the mouse wheel reduce to
these two moves. -/
inductive NavEvent where
  | navDown
  | navUp
deriving DecidableEq, Repr

/-- Apply a sequence of navigation events. -/
def navRun (v : WView) : List NavEvent → WView
  | [] => v
  | .navDown :: es => navRun (down v) es
  | .navUp :: es => navRun (up v) es

/-! ## Commands (src/src/command.rs) and the viewport event reduction -/

/-- Command (src/src/command.rs): Exit, Load of a parsed URL, TryLoad of
a possibly-relative URL string resolved later by App::run. -/
inductive Command where
  | exit
  | load (url : Url)
  | tryLoad (s : Str)
deriving DecidableEq, Repr

/-- State of the command-emitting viewport: the wrapped screen lines
with their first-line flags, the cursor and scroll screen-line indices
and the window height. -/
structure ViewSt where
  wrapped : List (Lib.Line × Bool)
  ycursor : Nat
  yscroll : Nat
  height : Nat
deriving DecidableEq, Repr

/-- Key events the viewport reduces to commands. -/
inductive VEvent where
  | ctrlC
  | keyQ
  | keyJ
  | keyK
  | keyEnter
  | keyOther
deriving DecidableEq, Repr

/-- Modelled from the spec: the spec scroll-down rule of section 4.6
(ycursor to min(ycursor + 1, len - 1), scroll along when the cursor
leaves the window). -/
def specDown (st : ViewSt) : ViewSt :=
  let c := min (st.ycursor + 1) (st.wrapped.length - 1)
  let s := if c ≥ st.yscroll + st.height then min (st.yscroll + 1) (st.wrapped.length - 1)
           else st.yscroll
  { st with ycursor := c, yscroll := s }

/-- Modelled from the spec: the spec scroll-up rule of section 4.6. -/
def specUp (st : ViewSt) : ViewSt :=
  let c := st.ycursor - 1
  let s := if c < st.yscroll then st.yscroll - 1 else st.yscroll
  { st with ycursor := c, yscroll := s }

/-- Modelled from the spec: the event-to-command reduction of the
command-emitting viewport. src/src/app.rs calls a View::event returning
an optional Command and dispatches Command::TryLoad, and
src/src/command.rs declares the commands, but the viewport revision
implementing that interface is not in the tree (the View in
src/src/view.rs predates commands and emits booleans only). Per the
spec table: Ctrl-C and q exit, j and k move, Enter on a link row emits
TryLoad of that row's URL and is a no-op on any other row. -/
def viewEvent (st : ViewSt) (e : VEvent) : ViewSt × Option Command :=
  match e with
  | .ctrlC => (st, some .exit)
  | .keyQ => (st, some .exit)
  | .keyJ => (specDown st, none)
  | .keyK => (specUp st, none)
  | .keyEnter =>
    match st.wrapped[st.ycursor]? with
    | some (.bareLink url, _) => (st, some (.tryLoad url))
    | some (.namedLink url _, _) => (st, some (.tryLoad url))
    | _ => (st, none)
  | .keyOther => (st, none)

/-! ## Helper lemmas -/

/-- Mapping the second projection over constantly-false flagging gives a
replicate of false. -/
theorem map_snd_const_false {α : Type} (t : List α) :
    (t.map (fun y => (y, false))).map Prod.snd = List.replicate t.length false := by
  induction t with
  | nil => rfl
  | cons x xs ih => simp [ih, List.replicate_succ]

/-- wrapFlags preserves length. -/
theorem wrapFlags_length {α : Type} (l : List α) : (wrapFlags l).length = l.length := by
  cases l <;> simp [wrapFlags]

/-- The flags attached by wrapFlags on a nonempty list: true on the
first element, false on all the others. -/
theorem wrapFlags_snd {α : Type} (l : List α) (h : l ≠ []) :
    (wrapFlags l).map Prod.snd = true :: List.replicate ((wrapFlags l).length - 1) false := by
  cases l with
  | nil => exact absurd rfl h
  | cons x t =>
    show ((x, true) :: t.map (fun y => (y, false))).map Prod.snd = _
    rw [List.map_cons, map_snd_const_false]
    simp [wrapFlags]

/-- The flags of a wrap call: true exactly on the first emitted line,
whether the fallback fires or not. -/
theorem wrap_snd (s : Str) (w : Nat) (f : Str → Lib.Line) :
    (wrap s w f).map Prod.snd = true :: List.replicate ((wrap s w f).length - 1) false := by
  unfold wrap
  cases h : textwrapWrap w s with
  | nil => simp [wrapFlags]
  | cons p ps => exact wrapFlags_snd _ (by simp)

/-- splitNlGo never returns an empty list. -/
theorem splitNlGo_ne_nil (s : Str) : ∀ cur : Str, splitNlGo cur s ≠ [] := by
  induction s with
  | nil => intro cur; simp [splitNlGo]
  | cons c t ih =>
    intro cur
    by_cases hc : c = '\n' <;> simp [splitNlGo, hc, ih]

/-- splitNl never returns an empty list: a preformatted body always
yields at least one screen row. -/
theorem splitNl_ne_nil (s : Str) : splitNl s ≠ [] := splitNlGo_ne_nil s []

/-! ## Claims -/

/-- C1: for every host name and list of presented certificates, the TOFU
verify operation behaves per contract: an empty presentation fails with
NoCertificatesPresented; an unrecorded host gets the presented leaf DER
inserted and Ok; a recorded DER equal to the presented leaf gives Ok; a
differing recorded DER fails with CertNotValidForName. In each case the
resulting store is the stated one. -/
theorem c1_verify_contract (store : Store) (host : Str) (certs : List Der) :
    (certs = [] →
      verify_server_cert store host certs = (.error .noCertificatesPresented, store)) ∧
    (∀ c0 t, certs = c0 :: t → storeGet store host = none →
      verify_server_cert store host certs = (.ok (), storeInsert store host c0)) ∧
    (∀ c0 t r0, certs = c0 :: t → storeGet store host = some r0 → r0 = c0 →
      verify_server_cert store host certs = (.ok (), store)) ∧
    (∀ c0 t r0, certs = c0 :: t → storeGet store host = some r0 → r0 ≠ c0 →
      verify_server_cert store host certs = (.error .certNotValidForName, store)) := by
  refine ⟨?_, ?_, ?_, ?_⟩
  · intro h; subst h; rfl
  · intro c0 t h hg; subst h; simp [verify_server_cert, hg]
  · intro c0 t r0 h hg he; subst h; subst he; simp [verify_server_cert, hg]
  · intro c0 t r0 h hg he; subst h; simp [verify_server_cert, hg, he]

/-- Witness for C1: a first sight records the leaf, a later mismatch is
rejected. -/
theorem c1_verify_contract_witness :
    verify_server_cert [] (strOf "host.example") [[1]] =
      (.ok (), [(strOf "host.example", [1])]) ∧
    verify_server_cert [(strOf "host.example", [1])] (strOf "host.example") [[2]] =
      (.error .certNotValidForName, [(strOf "host.example", [1])]) :=
  ⟨(c1_verify_contract [] (strOf "host.example") [[1]]).2.1 [1] [] rfl rfl,
   (c1_verify_contract [(strOf "host.example", [1])] (strOf "host.example") [[2]]).2.2.2
     [2] [] [1] rfl (by decide) (by decide)⟩

/-- C9: when the presented leaf differs from the recorded one, the
verification fails and the store after the call is exactly the store
before it: the error path performs no write. -/
theorem c9_mismatch_no_write (store : Store) (host : Str) (c0 : Der) (t : List Der)
    (r0 : Der) (hget : storeGet store host = some r0) (hne : r0 ≠ c0) :
    verify_server_cert store host (c0 :: t) = (.error .certNotValidForName, store) := by
  simp [verify_server_cert, hget, hne]

/-- Witness for C9 at a concrete store and mismatching leaf. -/
theorem c9_mismatch_no_write_witness :
    verify_server_cert [(strOf "host.example", [1, 2])] (strOf "host.example") [[3]] =
      (.error .certNotValidForName, [(strOf "host.example", [1, 2])]) :=
  c9_mismatch_no_write [(strOf "host.example", [1, 2])] (strOf "host.example")
    [3] [] [1, 2] (by decide) (by decide)

/-- C10: parse_text_gemini on the empty string returns a document with
zero lines, not a single empty text line, and leaves no unconsumed
input. -/
theorem c10_parse_empty :
    Lib.parse_text_gemini (strOf "") = some ([], []) ∧ ([] : List Lib.Line) ≠ [Lib.Line.text []] := by
  exact ⟨rfl, by decide⟩

/-- C2 (failing input): the parser loop of parse_text_gemini never
terminates on the one-character input consisting of a bare carriage
return: parse_line consumes nothing there, so no amount of fuel makes
the loop finish. -/
theorem c2_cr_divergence :
    ∀ fuel : Nat, Lib.parse_text_gemini_fuel fuel (strOf "\r") = none := by
  intro fuel
  induction fuel with
  | zero => rfl
  | succ n ih =>
    have h2 : Lib.parse_text_gemini_fuel (n + 1) (strOf "\r") =
        (match Lib.parse_text_gemini_fuel n (strOf "\r") with
         | none => none
         | some (doc, rem) => some (Lib.Line.text [] :: doc, rem)) := rfl
    rw [h2, ih]

/-- C4 (failing input): on an opening fence with no closing fence, the
library parser re-reads the fence line and the remainder as ordinary
text lines, and the binary-crate parser drops the accumulated block
entirely; neither produces the single Pre line spanning the remainder
that the specification prescribes. -/
theorem c4_unclosed_fence :
    Lib.parse_text_gemini (strOf "```py\nhello") =
      some ([Lib.Line.text (strOf "```py"), Lib.Line.text (strOf "hello")], []) ∧
    Bin.parse_text_gemini (strOf "```py\nhello") = some [] := by
  exact ⟨rfl, rfl⟩

/-- C6: for every width of at least 4 and every source line, line_wrap
emits at least one screen line and flags exactly the earliest one with
first = true (the flag sequence is true followed by false everywhere);
in particular an empty text payload still yields exactly one empty
screen line flagged true. -/
theorem c6_first_flags (width : Nat) (hw : 4 ≤ width) :
    (∀ line : Lib.Line, (line_wrap line width).map Prod.snd =
      true :: List.replicate ((line_wrap line width).length - 1) false) ∧
    line_wrap (.text []) width = [(.text [], true)] := by
  constructor
  · intro line
    cases line with
    | text t => exact wrap_snd t width Lib.Line.text
    | bareLink url => rfl
    | namedLink url name => exact wrap_snd name (width - 3) (Lib.Line.namedLink url)
    | pre alt body =>
      exact wrapFlags_snd _ (by simp [splitNl_ne_nil])
    | h1 t => exact wrap_snd t (width - 2) Lib.Line.h1
    | h2 t => exact wrap_snd t (width - 3) Lib.Line.h2
    | h3 t => exact wrap_snd t (width - 4) Lib.Line.h3
    | list t => exact wrap_snd t (width - 2) Lib.Line.list
    | quote t => exact wrap_snd t (width - 2) Lib.Line.quote
  · rfl

/-- Witness for C6 at width 8, on a list line and the empty text line. -/
theorem c6_first_flags_witness :
    (line_wrap (.list (strOf "alpha beta gamma")) 8).map Prod.snd =
      true :: List.replicate ((line_wrap (.list (strOf "alpha beta gamma")) 8).length - 1) false ∧
    line_wrap (.text []) 8 = [(.text [], true)] :=
  ⟨(c6_first_flags 8 (by decide)).1 (.list (strOf "alpha beta gamma")),
   (c6_first_flags 8 (by decide)).2⟩

/-- The three-block document of the C7 failing input, wrapped by the
view at terminal size 20 by 10: an ordinary page with a blank line
between two text lines, whose middle block wraps to zero screen rows. -/
def c7View0 : WView :=
  wviewNew [Bin.Line.text (strOf "a"), Bin.Line.text [], Bin.Line.text (strOf "b")] (20, 10) 0 0

/-- C7 (failing input): after two down events from the initial state the
cursor's screen-line position equals the total number of screen lines,
so the invariant ycursor < len(wrapped_doc) is violated: on the empty
middle block, increment_index compares against a wrapped len() - 1. -/
theorem c7_empty_block_breaks_invariant :
    ¬ (cursor_line (navRun c7View0 [.navDown, .navDown]) <
        totalLines (navRun c7View0 [.navDown, .navDown]).doc) ∧
    cursor_line (navRun c7View0 [.navDown, .navDown]) = 2 ∧
    totalLines (navRun c7View0 [.navDown, .navDown]).doc = 2 := by
  refine ⟨?_, ?_, ?_⟩ <;> decide

/-- C8: pressing Enter with the cursor on a bare or named link screen
line emits TryLoad of that link's URL and leaves the state unchanged;
on any other screen line, and past the end of the wrapped document,
Enter emits nothing and changes nothing. -/
theorem c8_enter_try_load (st : ViewSt) :
    (∀ url flag, st.wrapped[st.ycursor]? = some (.bareLink url, flag) →
      viewEvent st .keyEnter = (st, some (.tryLoad url))) ∧
    (∀ url name flag, st.wrapped[st.ycursor]? = some (.namedLink url name, flag) →
      viewEvent st .keyEnter = (st, some (.tryLoad url))) ∧
    (∀ row, st.wrapped[st.ycursor]? = some row →
      (∀ url flag, row ≠ (.bareLink url, flag)) →
      (∀ url name flag, row ≠ (.namedLink url name, flag)) →
      viewEvent st .keyEnter = (st, none)) ∧
    (st.wrapped[st.ycursor]? = none → viewEvent st .keyEnter = (st, none)) := by
  refine ⟨?_, ?_, ?_, ?_⟩
  · intro url flag h; simp [viewEvent, h]
  · intro url name flag h; simp [viewEvent, h]
  · rintro ⟨l, f⟩ h hbare hnamed
    cases l with
    | bareLink url => exact absurd rfl (hbare url f)
    | namedLink url name => exact absurd rfl (hnamed url name f)
    | text s => simp [viewEvent, h]
    | pre alt body => simp [viewEvent, h]
    | h1 s => simp [viewEvent, h]
    | h2 s => simp [viewEvent, h]
    | h3 s => simp [viewEvent, h]
    | list s => simp [viewEvent, h]
    | quote s => simp [viewEvent, h]
  · intro h; simp [viewEvent, h]

/-- Witness for C8: Enter on a concrete bare-link row emits TryLoad of
its URL. -/
theorem c8_enter_try_load_witness :
    viewEvent ⟨[(.bareLink (strOf "gemini://x"), true)], 0, 0, 10⟩ .keyEnter =
      (⟨[(.bareLink (strOf "gemini://x"), true)], 0, 0, 10⟩,
       some (.tryLoad (strOf "gemini://x"))) :=
  (c8_enter_try_load ⟨[(.bareLink (strOf "gemini://x"), true)], 0, 0, 10⟩).1
    (strOf "gemini://x") true rfl

/-- A network in which every response is a redirect whose meta parses to
a well-formed gemini URL (so that each hop passes the scheme and host
checks of App::read and re-enters the pipeline). -/
def RedirNet (net : Url → Bytes) : Prop :=
  ∀ u : Url, ∃ r : Response, parse_response (net u) = .ok r ∧
    (r.status = .redirectTemporary ∨ r.status = .redirectPermanent) ∧
    ∃ u2 : Url, urlParse r.meta = some u2 ∧
      u2.scheme = strOf "gemini" ∧ u2.host.isSome = true

/-- On an all-redirect network the pipeline consumes its whole recursion
budget and ends in the too-many-redirects error, whatever the budget. -/
theorem redirNet_exhausts (net : Url → Bytes) (inp : Option Str) (H : RedirNet net) :
    ∀ gas : Nat, ∀ url : Url, url.scheme = strOf "gemini" → url.host.isSome = true →
      fetchGas net inp gas url = some (.error .tooManyRedirects) := by
  intro gas
  induction gas with
  | zero => intro url _ _; rfl
  | succ n ih =>
    intro url hs hh
    obtain ⟨r, hr, hst, u2, hu2, hs2, hh2⟩ := H url
    obtain ⟨h, hh1⟩ : ∃ h, url.host = some h := by
      cases hu : url.host with
      | none => rw [hu] at hh; cases hh
      | some v => exact ⟨v, rfl⟩
    have hread : appRead net url = .ok (net url) := by
      simp [appRead, hs, hh1]
    simp only [fetchGas, hread, hr]
    rcases hst with h30 | h30 <;> simp only [h30, hu2] <;> exact ih u2 hs2 hh2

/-- C3: the fetch pipeline fails with the too-many-redirects error as
soon as the recursion depth reaches 5; and on a network where every
response is a redirect re-entering the pipeline with the URL parsed
from meta and depth + 1, the whole fetch from depth 0 (a six-hop chain:
five re-entries then the guard) returns that error rather than a
document. -/
theorem c3_redirect_bound :
    (∀ (net : Url → Bytes) (inp : Option Str) (url : Url) (depth : Nat), 5 ≤ depth →
      fetch_ net inp url depth = some (.error .tooManyRedirects)) ∧
    (∀ (net : Url → Bytes) (inp : Option Str) (url : Url), RedirNet net →
      url.scheme = strOf "gemini" → url.host.isSome = true →
      fetch net inp url = some (.error .tooManyRedirects)) := by
  constructor
  · intro net inp url depth h5
    unfold fetch_
    rw [show 5 - depth = 0 from by omega]
    rfl
  · intro net inp url H hs hh
    exact redirNet_exhausts net inp H 5 url hs hh

/-- The constant network of the C3 witness: every URL answers with a
permanent redirect to gemini://b. -/
def netRedirB : Url → Bytes := fun _ => utf8Encode (strOf "31 gemini://b\r\n")

/-- The starting URL gemini://a of the C3 witness. -/
def urlA : Url := ⟨strOf "gemini", some (strOf "a"), none, [], none⟩

/-- Witness for C3: chasing the constant redirect from gemini://a ends
in the too-many-redirects error. -/
theorem c3_redirect_bound_witness :
    fetch netRedirB none urlA = some (.error .tooManyRedirects) :=
  c3_redirect_bound.2 netRedirB none urlA
    (fun _ => ⟨⟨.redirectPermanent, strOf "gemini://b", []⟩, rfl, Or.inr rfl,
      ⟨strOf "gemini", some (strOf "b"), none, [], none⟩, rfl, rfl, rfl⟩)
    rfl rfl

/-- The URL gemini://q of the C5 scenario. -/
def urlQ : Url := ⟨strOf "gemini", some (strOf "q"), none, [], none⟩

/-- gemini://q?hello+world: the URL the client actually re-requests. -/
def urlQPlus : Url := ⟨strOf "gemini", some (strOf "q"), none, [], some (strOf "hello+world")⟩

/-- gemini://q?hello%20world: the URL the claim predicts. -/
def urlQPct : Url := ⟨strOf "gemini", some (strOf "q"), none, [], some (strOf "hello%20world")⟩

/-- The network of the C5 scenario: gemini://q prompts for input, and
both candidate re-request URLs serve distinguishable success pages. -/
def netC5 : Url → Bytes := fun u =>
  if u = urlQ then utf8Encode (strOf "10 Query?\r\n")
  else if u = urlQPlus then utf8Encode (strOf "20 text/gemini\r\nfollowed plus\n")
  else if u = urlQPct then utf8Encode (strOf "20 text/gemini\r\nfollowed percent\n")
  else []

/-- C5 (counterexample): for gemini://q and user input hello world, the
query set on the re-entered URL is hello+world, because
form_urlencoded::byte_serialize turns a space into a plus sign, so the
re-requested URL is gemini://q?hello+world and not the
gemini://q?hello%20world the claim states; the full pipeline on netC5
follows the plus URL and shows its page. -/
theorem c5_space_becomes_plus :
    urlSetQuery urlQ (byte_serialize (utf8Encode (strOf "hello world"))) = urlQPlus ∧
    urlQPlus ≠ urlQPct ∧
    urlParse (strOf "gemini://q?hello%20world") = some urlQPct ∧
    urlAsStr urlQPlus = strOf "gemini://q?hello+world" ∧
    fetch netC5 (some (strOf "hello world")) urlQ =
      some (.ok (.shown [Lib.Line.text (strOf "followed plus")])) := by
  refine ⟨by decide, by decide, by decide, by decide, by rfl⟩

/-- C5 (amended): on an Input or SensitiveInput response within the
recursion budget, fetch_ re-enters the pipeline at depth + 1 with the
URL whose query is the user input serialized by
form_urlencoded::byte_serialize (alphanumerics and asterisk, hyphen,
dot, underscore unchanged, space to plus, other bytes percent-encoded);
for gemini://q and input hello world the re-requested URL is
gemini://q?hello+world, and following it succeeds. -/
theorem c5_input_requery :
    (∀ (net : Url → Bytes) (s : Str) (url : Url) (depth : Nat),
      depth < 5 → url.scheme = strOf "gemini" → url.host.isSome = true →
      (∃ r : Response, parse_response (net url) = .ok r ∧
        (r.status = .input ∨ r.status = .sensitiveInput)) →
      fetch_ net (some s) url depth =
        fetch_ net (some s) (urlSetQuery url (byte_serialize (utf8Encode s))) (depth + 1)) ∧
    urlAsStr (urlSetQuery urlQ (byte_serialize (utf8Encode (strOf "hello world")))) =
      strOf "gemini://q?hello+world" ∧
    fetch netC5 (some (strOf "hello world")) urlQ =
      some (.ok (.shown [Lib.Line.text (strOf "followed plus")])) := by
  refine ⟨?_, by decide, by rfl⟩
  intro net s url depth hd hs hh hex
  obtain ⟨r, hr, hst⟩ := hex
  obtain ⟨h, hh1⟩ : ∃ h, url.host = some h := by
    cases hu : url.host with
    | none => rw [hu] at hh; cases hh
    | some v => exact ⟨v, rfl⟩
  have hread : appRead net url = .ok (net url) := by
    simp [appRead, hs, hh1]
  unfold fetch_
  rw [show 5 - depth = (5 - (depth + 1)) + 1 from by omega]
  simp only [fetchGas, hread, hr]
  rcases hst with h10 | h10 <;> simp only [h10]

/-- Witness for C5: the re-entry equation at the concrete scenario. -/
theorem c5_input_requery_witness :
    fetch_ netC5 (some (strOf "hello world")) urlQ 0 =
      fetch_ netC5 (some (strOf "hello world"))
        (urlSetQuery urlQ (byte_serialize (utf8Encode (strOf "hello world")))) 1 :=
  c5_input_requery.1 netC5 (strOf "hello world") urlQ 0 (by omega) rfl rfl
    ⟨⟨.input, strOf "Query?", []⟩, rfl, Or.inl rfl⟩

end Titan
